import Mathlib

/-!
Verification of the MultiKey environment (src/minigrid/envs/multikey.py).

The file shallowly embeds the episode-lifecycle logic of the MultiKeyEnv
class: construction (__init__), layout generation (_gen_grid) and the
per-step termination/reward override (step).  Everything the class itself
computes is translated directly from the Python source; the collaborating
base framework (the raw step outcome, the grid placement primitives and
the color table minigrid.core.constants.COLOR_TO_IDX) is not part of the
source tree and is modelled from the specification's description of those
interfaces, marked by doc comments starting with the words Modelled from
the spec.
-/

namespace MultiKey

/-- Modelled from the spec: the fixed color palette of key colors, in the
global fixed color-priority ordering.  The spec pins the number of required
keys to 1..5, bounded by the number of distinguishable key colors, and names
the first three colors red, green, blue in its scenarios; the remaining two
palette entries are named purple and yellow here. -/
inductive Color where
  | red
  | green
  | blue
  | purple
  | yellow
deriving DecidableEq

/-- Modelled from the spec: the color table COLOR_TO_IDX of the base
framework, an insertion-ordered mapping from color to its index under the
fixed total ordering of the palette (an explicit ordered constant table,
per the spec's design note on pinning iteration order). -/
def COLOR_TO_IDX : List (Color × Nat) :=
  [(Color.red, 0), (Color.green, 1), (Color.blue, 2),
   (Color.purple, 3), (Color.yellow, 4)]

/-- The fixed total ordering of the palette (the keys of COLOR_TO_IDX in
insertion order). -/
def colorOrder : List Color := COLOR_TO_IDX.map Prod.fst

/-- From source (multikey.py, __init__):
required_key_colors = tuple(k for k in COLOR_TO_IDX if COLOR_TO_IDX[k] < num_keys);
iterating the mapping in insertion order and keeping the colors whose index
is below num_keys. -/
def requiredKeyColorsOf (numKeys : Nat) : List Color :=
  (COLOR_TO_IDX.filter (fun p => p.2 < numKeys)).map Prod.fst

/-- An object the agent has picked up: the carrying container of the base
framework exposes each held object through its color attribute. -/
structure CarriedObj where
  color : Color
deriving DecidableEq

/-- The five-tuple returned by a step of the environment:
(observation, reward, terminated, truncated, info).  Observation and info
are opaque to the termination logic and stay type parameters; the reward
(a Python float that only ever holds the base framework's value or the
exact constant -1.0 here) is embedded as a rational. -/
structure StepOutcome (Obs Info : Type) where
  obs : Obs
  reward : ℚ
  terminated : Bool
  truncated : Bool
  info : Info
deriving DecidableEq

/-- From source (multikey.py, step):
took_keys_in_order = all(c == cref for c, cref in zip(colors, required_key_colors)),
the element-wise comparison of the carried color sequence against the
required sequence, up to the shorter of the two. -/
def tookKeysInOrder (colors required : List Color) : Bool :=
  (colors.zip required).all (fun p => p.1 == p.2)

/-- From source (multikey.py, step).  The raw outcome of
super().step(action) is a parameter (the base framework is outside the
source tree); the body is the override logic of MultiKeyEnv.step:

    obs, reward, terminated, truncated, info = super().step(action)
    if terminated and len(self.carrying) != len(self.required_key_colors):
        terminated = True
        reward = -1.0
    if self.ordered:
        colors = [t.color for t in self.carrying]
        took_keys_in_order = all(c == cref for c, cref in zip(colors, self.required_key_colors))
        if not took_keys_in_order:
            terminated = True
            reward = -1.0
    return obs, reward, terminated, truncated, info
-/
def step {Obs Info : Type} (required : List Color) (ordered : Bool)
    (base : StepOutcome Obs Info) (carrying : List CarriedObj) :
    StepOutcome Obs Info :=
  let st1 : Bool × ℚ :=
    if base.terminated = true ∧ carrying.length ≠ required.length then
      (true, -1)
    else
      (base.terminated, base.reward)
  let st2 : Bool × ℚ :=
    if ordered = true then
      let colors := carrying.map CarriedObj.color
      if tookKeysInOrder colors required = false then (true, -1) else st1
    else st1
  { obs := base.obs, reward := st2.2, terminated := st2.1,
    truncated := base.truncated, info := base.info }

/-- A grid position: column x, then row y. -/
abbrev Pos := Nat × Nat

/-- The cell contents occurring in this environment: nothing, a wall, the
goal, or a key of some color. -/
inductive Cell where
  | empty
  | wall
  | goal
  | key (c : Color)
deriving DecidableEq

/-- Modelled from the spec: the grid collaborator, a width x height array
of cells, stored in row-major order. -/
structure Grid where
  width : Nat
  height : Nat
  cells : List Cell
deriving DecidableEq

/-- Row-major index of a position. -/
def Grid.index (g : Grid) (p : Pos) : Nat :=
  p.2 * g.width + p.1

/-- The cell at a position (out-of-range reads as wall; the theorems only
quantify over in-range positions). -/
def Grid.get (g : Grid) (p : Pos) : Cell :=
  g.cells.getD (g.index p) Cell.wall

/-- Writing a cell at a position. -/
def Grid.set (g : Grid) (p : Pos) (c : Cell) : Grid :=
  { g with cells := g.cells.set (g.index p) c }

/-- Modelled from the spec: Grid(width, height) of the base framework — a
grid of empty cells. -/
def Grid.create (w h : Nat) : Grid :=
  { width := w, height := h, cells := List.replicate (w * h) Cell.empty }

/-- Whether a position lies on the outer boundary of a w x h grid. -/
def onBoundary (w h : Nat) (p : Pos) : Bool :=
  p.1 == 0 || p.2 == 0 || p.1 == w - 1 || p.2 == h - 1

/-- Modelled from the spec: grid.wall_rect(0, 0, width, height) — wall the
outer boundary, leaving the interior as it was. -/
def Grid.wallRect (g : Grid) : Grid :=
  { g with cells := (List.range g.cells.length).map (fun i =>
      if onBoundary g.width g.height (i % g.width, i / g.width) then
        Cell.wall
      else
        g.cells.getD i Cell.empty) }

/-- All positions of a w x h grid. -/
def positionsIn (w h : Nat) : List Pos :=
  (List.range h).flatMap (fun y => (List.range w).map (fun x => (x, y)))

/-- Modelled from the spec: the candidate cells of the random placement
primitive — cells holding nothing, excluding the agent's position (when an
agent has been placed). -/
def freeCells (g : Grid) (agentPos : Option Pos) : List Pos :=
  (positionsIn g.width g.height).filter
    (fun p => g.get p == Cell.empty && agentPos != some p)

/-- Modelled from the spec: place_obj — draw a random free cell (the draw
is embedded as an arbitrary seed reduced modulo the number of candidates)
and put the object there; a layout with no free cell left is a fatal
placement failure, embedded as none. -/
def placeObj (g : Grid) (agentPos : Option Pos) (c : Cell) (seed : Nat) :
    Option (Grid × Pos) :=
  let free := freeCells g agentPos
  (free.get? (seed % free.length)).map (fun p => (g.set p c, p))

/-- Modelled from the spec: place_agent — draw a uniformly random free cell
for the agent (the goal cell is excluded because it is occupied). -/
def placeAgent (g : Grid) (seed : Nat) : Option Pos :=
  let free := freeCells g none
  free.get? (seed % free.length)

/-- From source (multikey.py, _gen_grid): the key placement loop — one
place_obj call per color of required_key_colors, in order. -/
def placeKeys (g : Grid) (apos : Pos) (colors : List Color)
    (seeds : Nat → Nat) (i : Nat) : Option Grid :=
  match colors with
  | [] => some g
  | c :: rest =>
    match placeObj g (some apos) (Cell.key c) (seeds i) with
    | none => none
    | some gp => placeKeys gp.1 apos rest seeds (i + 1)

/-- The world a layout generation produces: the grid, the agent position
and the agent orientation. -/
structure WorldState where
  grid : Grid
  agentPos : Pos
  agentDir : Nat
deriving DecidableEq

/-- From source (multikey.py, _gen_grid): create the grid, wall the outer
boundary, put the goal at (width - 2, height - 2), place the agent at a
random position and orientation, then place one key per required color at
a random free cell.  The random draws of the collaborating placement
primitives are embedded as a seed stream. -/
def genGrid (w h : Nat) (required : List Color) (seeds : Nat → Nat) :
    Option WorldState :=
  let g1 := (Grid.create w h).wallRect
  let g2 := g1.set (w - 2, h - 2) Cell.goal
  match placeAgent g2 (seeds 0) with
  | none => none
  | some apos =>
    match placeKeys g2 apos required seeds 1 with
    | none => none
    | some g3 =>
      some { grid := g3, agentPos := apos, agentDir := seeds 0 % 4 }

/-- The configuration state a successful construction establishes:
num_keys, the derived required_key_colors, the ordered flag, and the
max_steps budget (defaulting to 10 * size ** 2), together with the current
world (absent until the first reset). -/
structure MultiKeyEnvState where
  size : Nat
  numKeys : Nat
  maxSteps : Nat
  ordered : Bool
  requiredKeyColors : List Color
  world : Option WorldState
deriving DecidableEq

/-- From source (multikey.py, __init__).  Construction runs
assert num_keys >= 1 and num_keys <= 5 and, on success, stores num_keys,
required_key_colors and ordered; a failing assert raises, so the caller
never receives an instance — embedded as an Option that is none exactly
when the assert fails (no partial construction escapes). -/
def init (size : Nat) (numKeys : Nat) (maxSteps : Option Nat)
    (ordered : Bool) : Option MultiKeyEnvState :=
  let maxSteps := maxSteps.getD (10 * size ^ 2)
  if numKeys ≥ 1 ∧ numKeys ≤ 5 then
    some { size := size, numKeys := numKeys, maxSteps := maxSteps,
           ordered := ordered,
           requiredKeyColors := requiredKeyColorsOf numKeys,
           world := none }
  else
    none

/-- Modelled from the spec: reset — the base framework calls _gen_grid with
the configured size and installs the produced world; the construction-time
configuration (in particular required_key_colors) is not touched. -/
def reset (env : MultiKeyEnvState) (seeds : Nat → Nat) :
    Option MultiKeyEnvState :=
  (genGrid env.size env.size env.requiredKeyColors seeds).map
    (fun ws => { env with world := some ws })

/-- Dimension/storage agreement of a grid: width and height are w and h and
the cell store has one entry per position. -/
def Grid.wf (g : Grid) (w h : Nat) : Prop :=
  g.width = w ∧ g.height = h ∧ g.cells.length = w * h

/-- The layout invariant maintained while _gen_grid places objects: the
boundary is wall, the goal sits exactly at (w - 2, h - 2), exactly the
colors placed so far appear as keys (one cell each), and the agent cell is
free. -/
structure LayoutInv (w h : Nat) (g : Grid) (apos : Pos)
    (placed : List Color) : Prop where
  wf : g.wf w h
  walls : ∀ p : Pos, p.1 < w → p.2 < h → onBoundary w h p = true →
    g.get p = Cell.wall
  goalIff : ∀ p : Pos, p.1 < w → p.2 < h →
    (g.get p = Cell.goal ↔ p = (w - 2, h - 2))
  noKey : ∀ c : Color, c ∉ placed → ∀ p : Pos, p.1 < w → p.2 < h →
    g.get p ≠ Cell.key c
  oneKey : ∀ c : Color, c ∈ placed → ∃ p : Pos, p.1 < w ∧ p.2 < h ∧
    g.get p = Cell.key c ∧
    ∀ q : Pos, q.1 < w → q.2 < h → g.get q = Cell.key c → q = p
  agentFree : apos.1 < w ∧ apos.2 < h ∧ g.get apos = Cell.empty

/-- A default world, used only as the fallback of Option.getD at concrete
instantiations. -/
def defaultWorld : WorldState :=
  { grid := Grid.create 0 0, agentPos := (0, 0), agentDir := 0 }

/-- The concrete world generated at size 5 with two required keys and the
all-zero seed stream. -/
def world9 : WorldState :=
  (genGrid 5 5 (requiredKeyColorsOf 2) (fun _ => 0)).getD defaultWorld

/-- A concrete constructed instance (size 5, two ordered keys), used to
instantiate theorems at concrete inputs. -/
def env0 : MultiKeyEnvState :=
  { size := 5, numKeys := 2, maxSteps := 250, ordered := true,
    requiredKeyColors := requiredKeyColorsOf 2, world := none }

/-- The concrete instance env0 after a reset with the all-zero seed
stream. -/
def env1 : MultiKeyEnvState :=
  (reset env0 (fun _ => 0)).getD env0

/-- A concrete raw outcome of an ongoing step (no terminal flag, reward 0),
used to instantiate theorems at concrete inputs. -/
def baseOngoing : StepOutcome Unit Unit :=
  { obs := (), reward := 0, terminated := false, truncated := false,
    info := () }

/-- A concrete raw outcome of a truncating step: the base framework reports
truncated with its default reward 0 and no terminal flag. -/
def baseTruncating : StepOutcome Unit Unit :=
  { obs := (), reward := 0, terminated := false, truncated := true,
    info := () }

/-- A concrete raw outcome of a goal-reaching step: the base framework
reports terminated with its success reward (1 here). -/
def baseGoal : StepOutcome Unit Unit :=
  { obs := (), reward := 1, terminated := true, truncated := false,
    info := () }

theorem tookKeysInOrder_eq_true_iff (cs rs : List Color) :
    tookKeysInOrder cs rs = true ↔
      ∀ i : Nat, ∀ h1 : i < cs.length, ∀ h2 : i < rs.length,
        cs.get ⟨i, h1⟩ = rs.get ⟨i, h2⟩ := by
  induction cs generalizing rs with
  | nil =>
    constructor
    · intro _ i h1 h2
      exact absurd h1 (by simp)
    · intro _
      rfl
  | cons c cs ih =>
    cases rs with
    | nil =>
      constructor
      · intro _ i h1 h2
        exact absurd h2 (by simp)
      · intro _
        rfl
    | cons r rs =>
      have hstep : tookKeysInOrder (c :: cs) (r :: rs) =
          ((c == r) && tookKeysInOrder cs rs) := rfl
      rw [hstep, Bool.and_eq_true, beq_iff_eq, ih]
      constructor
      · rintro ⟨hcr, htl⟩ i h1 h2
        cases i with
        | zero => exact hcr
        | succ j =>
          exact htl j (Nat.lt_of_succ_lt_succ h1) (Nat.lt_of_succ_lt_succ h2)
      · intro hall
        refine ⟨hall 0 (by simp) (by simp), fun j hj1 hj2 => ?_⟩
        exact hall (j + 1) (Nat.succ_lt_succ hj1) (Nat.succ_lt_succ hj2)

theorem tookKeysInOrder_self (rs : List Color) :
    tookKeysInOrder rs rs = true :=
  (tookKeysInOrder_eq_true_iff rs rs).2 (fun _ _ _ => rfl)

/-- Closed form of the step override: the ordering branch runs last and
wins; the completeness branch fires only on a base terminal flag; the
observation, truncated flag and info always pass through. -/
theorem step_eval {Obs Info : Type} (required : List Color) (ordered : Bool)
    (base : StepOutcome Obs Info) (carrying : List CarriedObj) :
    step required ordered base carrying =
      { obs := base.obs,
        reward :=
          if ordered = true ∧
              tookKeysInOrder (carrying.map CarriedObj.color) required = false
          then -1
          else if base.terminated = true ∧ carrying.length ≠ required.length
          then -1
          else base.reward,
        terminated :=
          if ordered = true ∧
              tookKeysInOrder (carrying.map CarriedObj.color) required = false
          then true
          else if base.terminated = true ∧ carrying.length ≠ required.length
          then true
          else base.terminated,
        truncated := base.truncated,
        info := base.info } := by
  unfold step
  by_cases h1 : ordered = true
  · by_cases h2 :
        tookKeysInOrder (carrying.map CarriedObj.color) required = false
    · simp [h1, h2]
    · by_cases h3 : base.terminated = true ∧ carrying.length ≠ required.length
      · simp [h1, h2, h3]
      · simp [h1, h2, h3]
  · by_cases h3 : base.terminated = true ∧ carrying.length ≠ required.length
    · simp [h1, h3]
    · simp [h1, h3]

/-- C1: with ordered=True, at every step whose carried color sequence
disagrees with the required sequence at some position (element-wise, up to
the shorter length), the outcome of step has terminated=True and
reward=-1.0, regardless of the base framework's terminated flag (the base
outcome is universally quantified, so this holds whatever the agent's
position relative to the goal). -/
theorem step_ordered_mismatch_fails {Obs Info : Type} (required : List Color)
    (base : StepOutcome Obs Info) (carrying : List CarriedObj) (i : Nat)
    (h1 : i < (carrying.map CarriedObj.color).length) (h2 : i < required.length)
    (hne : (carrying.map CarriedObj.color).get ⟨i, h1⟩ ≠ required.get ⟨i, h2⟩) :
    (step required true base carrying).terminated = true ∧
    (step required true base carrying).reward = -1 := by
  have hfalse :
      tookKeysInOrder (carrying.map CarriedObj.color) required = false := by
    rcases Bool.eq_false_or_eq_true
        (tookKeysInOrder (carrying.map CarriedObj.color) required) with h | h
    · exact absurd ((tookKeysInOrder_eq_true_iff _ _).1 h i h1 h2) hne
    · exact h
  rw [step_eval]
  simp [hfalse]

theorem step_ordered_mismatch_fails_witness :
    (step [Color.red, Color.green] true baseOngoing
      [{ color := Color.green }]).terminated = true ∧
    (step [Color.red, Color.green] true baseOngoing
      [{ color := Color.green }]).reward = -1 :=
  step_ordered_mismatch_fails [Color.red, Color.green] baseOngoing
    [{ color := Color.green }] 0 (by decide) (by decide) (by decide)

/-- C2: when the base framework reports terminated=True and the carried
color sequence equals the required sequence position-by-position (hence the
carried count equals k), neither override fires: the outcome is the raw base
outcome unchanged, so terminated=True and the reward is the base
framework's success reward. -/
theorem step_complete_ordered_passthrough {Obs Info : Type}
    (required : List Color) (ordered : Bool) (base : StepOutcome Obs Info)
    (carrying : List CarriedObj)
    (hterm : base.terminated = true)
    (hcolors : carrying.map CarriedObj.color = required) :
    (step required ordered base carrying).terminated = true ∧
    (step required ordered base carrying).reward = base.reward ∧
    step required ordered base carrying = base := by
  have hlen : carrying.length = required.length := by
    rw [← hcolors, List.length_map]
  have htko : tookKeysInOrder (carrying.map CarriedObj.color) required = true := by
    rw [hcolors]
    exact tookKeysInOrder_self required
  obtain ⟨o, r, t, tr, inf⟩ := base
  simp only [StepOutcome.terminated] at hterm
  subst hterm
  rw [step_eval]
  simp [htko, hlen]

theorem step_complete_ordered_passthrough_witness :
    (step [Color.red] true baseGoal [{ color := Color.red }]).terminated =
      true ∧
    (step [Color.red] true baseGoal [{ color := Color.red }]).reward =
      baseGoal.reward ∧
    step [Color.red] true baseGoal [{ color := Color.red }] = baseGoal :=
  step_complete_ordered_passthrough [Color.red] true baseGoal
    [{ color := Color.red }] rfl (by decide)

/-- C3: when the base framework reports terminated=True and fewer objects
are carried than the required count, the outcome has terminated=True and
reward=-1.0, for every carried subset and both values of the ordered flag
(the completeness branch fires; the ordering branch can only write the same
values). -/
theorem step_incomplete_at_goal_fails {Obs Info : Type}
    (required : List Color) (ordered : Bool) (base : StepOutcome Obs Info)
    (carrying : List CarriedObj)
    (hterm : base.terminated = true)
    (hlt : carrying.length < required.length) :
    (step required ordered base carrying).terminated = true ∧
    (step required ordered base carrying).reward = -1 := by
  have hne : carrying.length ≠ required.length := Nat.ne_of_lt hlt
  rw [step_eval]
  by_cases h2 :
      tookKeysInOrder (carrying.map CarriedObj.color) required = false
  · cases ordered <;> simp [h2, hterm, hne]
  · cases ordered <;> simp [h2, hterm, hne]

theorem step_incomplete_at_goal_fails_witness :
    (step [Color.red, Color.green] true baseGoal []).terminated = true ∧
    (step [Color.red, Color.green] true baseGoal []).reward = -1 :=
  step_incomplete_at_goal_fails [Color.red, Color.green] true baseGoal []
    rfl (by decide)

/-- C4: with ordered=False the ordering branch is dead code, so the
override never changes the terminated flag (order mismatches never force
termination); and when the base framework reports terminated=True while the
carried colors are a permutation of the required colors (the correct set,
any pickup order), the raw base outcome — the success outcome — passes
through unchanged. -/
theorem step_unordered_no_order_override {Obs Info : Type}
    (required : List Color) (base : StepOutcome Obs Info)
    (carrying : List CarriedObj) :
    (step required false base carrying).terminated = base.terminated ∧
    ((carrying.map CarriedObj.color).Perm required → base.terminated = true →
      step required false base carrying = base) := by
  constructor
  · rw [step_eval]
    by_cases h3 : base.terminated = true ∧ carrying.length ≠ required.length
    · simp [h3, h3.1]
    · simp [h3]
  · intro hperm hterm
    have hlen : carrying.length = required.length := by
      have := hperm.length_eq
      rwa [List.length_map] at this
    rw [step_eval]
    simp [hlen]

theorem step_unordered_no_order_override_witness :
    (step [Color.red, Color.green] false baseGoal
      [{ color := Color.green }, { color := Color.red }]).terminated =
      baseGoal.terminated ∧
    step [Color.red, Color.green] false baseGoal
      [{ color := Color.green }, { color := Color.red }] = baseGoal :=
  ⟨(step_unordered_no_order_override [Color.red, Color.green] baseGoal
      [{ color := Color.green }, { color := Color.red }]).1,
   (step_unordered_no_order_override [Color.red, Color.green] baseGoal
      [{ color := Color.green }, { color := Color.red }]).2 (by decide) rfl⟩

/-- C5 (counterexample): the claim says the reward at a truncating step
equals the base framework's default reward for every content of the carried
set.  At the concrete input ordered=True, required=[red, green],
carried=[green], base outcome (reward 0, terminated=False, truncated=True),
the ordering branch fires: the returned reward is -1, not the base default
0 (and terminated is forced to True). -/
theorem step_truncation_default_reward_cex :
    (step [Color.red, Color.green] true baseTruncating
      [{ color := Color.green }]).truncated = true ∧
    (step [Color.red, Color.green] true baseTruncating
      [{ color := Color.green }]).reward = -1 ∧
    (step [Color.red, Color.green] true baseTruncating
      [{ color := Color.green }]).reward ≠ baseTruncating.reward := by
  refine ⟨rfl, by decide, by decide⟩

/-- C5 (amended): at a truncating step (base outcome not terminated,
truncated=True), the outcome keeps truncated=True, and — provided
ordered=False or the carried colors agree with the required sequence
element-wise up to the shorter length — the whole raw outcome, including
the base framework's default reward, passes through unchanged. -/
theorem step_truncation_passthrough {Obs Info : Type}
    (required : List Color) (ordered : Bool) (base : StepOutcome Obs Info)
    (carrying : List CarriedObj)
    (hterm : base.terminated = false) (htrunc : base.truncated = true)
    (hok : ordered = false ∨
      tookKeysInOrder (carrying.map CarriedObj.color) required = true) :
    (step required ordered base carrying).truncated = true ∧
    (step required ordered base carrying).reward = base.reward ∧
    step required ordered base carrying = base := by
  obtain ⟨o, r, t, tr, inf⟩ := base
  simp only [StepOutcome.terminated] at hterm
  simp only [StepOutcome.truncated] at htrunc
  subst hterm
  subst htrunc
  rw [step_eval]
  rcases hok with h | h
  · simp [h]
  · simp [h]

theorem step_truncation_passthrough_witness :
    (step [Color.red, Color.green] true baseTruncating
      [{ color := Color.red }]).truncated = true ∧
    (step [Color.red, Color.green] true baseTruncating
      [{ color := Color.red }]).reward = baseTruncating.reward ∧
    step [Color.red, Color.green] true baseTruncating
      [{ color := Color.red }] = baseTruncating :=
  step_truncation_passthrough [Color.red, Color.green] true baseTruncating
    [{ color := Color.red }] rfl rfl (Or.inr (by decide))

/-- C8: with ordered=True and an empty carried sequence the pairwise zip
against the required sequence is empty, all() over it is vacuously true,
and the ordering branch is a no-op: stepping with ordered=True equals
stepping with ordered=False (where the branch does not exist), at every
base outcome — the ordering check alone never forces termination or
reward=-1.0 while zero keys are held. -/
theorem step_empty_carried_vacuous {Obs Info : Type} (required : List Color)
    (base : StepOutcome Obs Info) :
    tookKeysInOrder (([] : List CarriedObj).map CarriedObj.color) required =
      true ∧
    step required true base [] = step required false base [] := by
  constructor
  · rfl
  · rw [step_eval, step_eval]
    simp [tookKeysInOrder]

/-- C10: the override touches only the reward and terminated components:
the observation, the truncated flag and the info value returned to the
caller are exactly those of the base framework's raw outcome, for every
configuration, base outcome and carried sequence. -/
theorem step_frame_effect {Obs Info : Type} (required : List Color)
    (ordered : Bool) (base : StepOutcome Obs Info)
    (carrying : List CarriedObj) :
    (step required ordered base carrying).obs = base.obs ∧
    (step required ordered base carrying).truncated = base.truncated ∧
    (step required ordered base carrying).info = base.info :=
  ⟨rfl, rfl, rfl⟩

/-- C6: construction fails exactly when the requested key count is below 1
or exceeds the number of colors of the fixed palette; failure is embedded
as none, so no partially constructed instance is usable. -/
theorem init_fails_iff (size numKeys : Nat) (maxSteps : Option Nat)
    (ordered : Bool) :
    init size numKeys maxSteps ordered = none ↔
      (numKeys < 1 ∨ COLOR_TO_IDX.length < numKeys) := by
  have hlen : COLOR_TO_IDX.length = 5 := rfl
  rw [hlen]
  unfold init
  by_cases h : numKeys ≥ 1 ∧ numKeys ≤ 5
  · rw [if_pos h]
    simp only [reduceCtorEq, false_iff]
    omega
  · rw [if_neg h]
    simp only [true_iff]
    omega

/-- C7: for every k in 1..5 the derived required_key_colors has length
exactly k, contains no duplicate colors, equals the first k colors of the
fixed total palette ordering (nothing is randomized), and reset never
touches it, so it is identical across episode resets of one instance. -/
theorem requiredKeyColors_fixed (k : Nat) (h1 : 1 ≤ k) (h2 : k ≤ 5) :
    (requiredKeyColorsOf k).length = k ∧
    (requiredKeyColorsOf k).Nodup ∧
    requiredKeyColorsOf k = colorOrder.take k ∧
    (∀ (env env' : MultiKeyEnvState) (seeds : Nat → Nat),
      reset env seeds = some env' →
      env'.requiredKeyColors = env.requiredKeyColors) := by
  refine ⟨?_, ?_, ?_, ?_⟩
  · interval_cases k <;> decide
  · interval_cases k <;> decide
  · interval_cases k <;> decide
  · intro env env' seeds hr
    rcases hopt : genGrid env.size env.size env.requiredKeyColors seeds with
      _ | ws
    · rw [reset, hopt] at hr
      simp at hr
    · rw [reset, hopt] at hr
      simp only [Option.map_some'] at hr
      rw [← Option.some_inj.1 hr]

theorem index_lt (w h : Nat) (p : Pos) (hx : p.1 < w) (hy : p.2 < h) :
    p.2 * w + p.1 < w * h := by
  have h1 : p.2 * w + p.1 < (p.2 + 1) * w := by
    rw [Nat.succ_mul]
    exact Nat.add_lt_add_left hx _
  have h2 : (p.2 + 1) * w ≤ h * w :=
    Nat.mul_le_mul_right w (Nat.succ_le_of_lt hy)
  rw [Nat.mul_comm w h]
  exact Nat.lt_of_lt_of_le h1 h2

theorem index_mod (w : Nat) (p : Pos) (hx : p.1 < w) :
    (p.2 * w + p.1) % w = p.1 := by
  rw [Nat.mul_comm, Nat.mul_add_mod]
  exact Nat.mod_eq_of_lt hx

theorem index_div (w : Nat) (p : Pos) (hx : p.1 < w) :
    (p.2 * w + p.1) / w = p.2 := by
  have hw : 0 < w := Nat.lt_of_le_of_lt (Nat.zero_le _) hx
  rw [Nat.mul_comm, Nat.mul_add_div hw, Nat.div_eq_of_lt hx, Nat.add_zero]

theorem index_inj (w : Nat) (p q : Pos) (hpx : p.1 < w) (hqx : q.1 < w)
    (heq : p.2 * w + p.1 = q.2 * w + q.1) : p = q := by
  have hx : p.1 = q.1 := by
    have h1 := index_mod w p hpx
    have h2 := index_mod w q hqx
    rw [heq] at h1
    rw [h1] at h2
    exact h2
  have hy : p.2 = q.2 := by
    have h1 := index_div w p hpx
    have h2 := index_div w q hqx
    rw [heq] at h1
    rw [h1] at h2
    exact h2
  obtain ⟨a, b⟩ := p
  obtain ⟨a2, b2⟩ := q
  simp only at hx hy
  rw [hx, hy]

theorem mem_positionsIn (w h : Nat) (p : Pos) :
    p ∈ positionsIn w h ↔ p.1 < w ∧ p.2 < h := by
  obtain ⟨a, b⟩ := p
  unfold positionsIn
  simp only [List.mem_flatMap, List.mem_map, List.mem_range, Prod.mk.injEq]
  constructor
  · rintro ⟨y, hy, x, hx, rfl, rfl⟩
    exact ⟨hx, hy⟩
  · rintro ⟨hx, hy⟩
    exact ⟨b, hy, a, hx, rfl, rfl⟩

theorem Grid.wf_create (w h : Nat) : (Grid.create w h).wf w h :=
  ⟨rfl, rfl, by simp [Grid.create]⟩

theorem Grid.wf_wallRect (g : Grid) (w h : Nat) (hwf : g.wf w h) :
    g.wallRect.wf w h := by
  obtain ⟨hw, hh, hl⟩ := hwf
  refine ⟨hw, hh, ?_⟩
  simp only [Grid.wallRect, List.length_map, List.length_range]
  exact hl

theorem Grid.wf_set (g : Grid) (w h : Nat) (hwf : g.wf w h) (p : Pos)
    (c : Cell) : (g.set p c).wf w h := by
  obtain ⟨hw, hh, hl⟩ := hwf
  exact ⟨hw, hh, by simp only [Grid.set, List.length_set]; exact hl⟩

theorem Grid.get_create (w h : Nat) (p : Pos) (hx : p.1 < w) (hy : p.2 < h) :
    (Grid.create w h).get p = Cell.empty := by
  unfold Grid.create Grid.get Grid.index
  have hlt : p.2 * w + p.1 < (List.replicate (w * h) Cell.empty).length := by
    rw [List.length_replicate]
    exact index_lt w h p hx hy
  rw [List.getD_eq_getElem _ _ hlt, List.getElem_replicate]

theorem Grid.get_wallRect (g : Grid) (w h : Nat) (hwf : g.wf w h) (p : Pos)
    (hx : p.1 < w) (hy : p.2 < h) :
    g.wallRect.get p =
      if onBoundary w h p then Cell.wall else g.get p := by
  obtain ⟨hw, hh, hl⟩ := hwf
  unfold Grid.wallRect Grid.get Grid.index
  simp only
  have hidx : p.2 * w + p.1 < w * h := index_lt w h p hx hy
  have hlt : p.2 * g.width + p.1 <
      ((List.range g.cells.length).map (fun i =>
        if onBoundary g.width g.height (i % g.width, i / g.width) then
          Cell.wall
        else g.cells.getD i Cell.empty)).length := by
    rw [List.length_map, List.length_range, hl, hw]
    exact hidx
  rw [List.getD_eq_getElem _ _ hlt, List.getElem_map, List.getElem_range]
  rw [hw, hh]
  rw [index_mod w p hx, index_div w p hx]
  have hpe : ((p.1, p.2) : Pos) = p := rfl
  rw [hpe]
  by_cases hb : onBoundary w h p = true
  · rw [if_pos hb, if_pos hb]
  · rw [if_neg hb, if_neg hb]
    have hg1 : p.2 * w + p.1 < g.cells.length := by
      rw [hl]
      exact hidx
    rw [List.getD_eq_getElem _ _ hg1, List.getD_eq_getElem _ _ hg1]

theorem Grid.width_set (g : Grid) (p : Pos) (c : Cell) :
    (g.set p c).width = g.width := rfl

theorem Grid.get_set_self (g : Grid) (w h : Nat) (hwf : g.wf w h) (p : Pos)
    (hx : p.1 < w) (hy : p.2 < h) (c : Cell) : (g.set p c).get p = c := by
  obtain ⟨hw, hh, hl⟩ := hwf
  unfold Grid.set Grid.get Grid.index
  simp only
  have hlt : p.2 * g.width + p.1 <
      (g.cells.set (p.2 * g.width + p.1) c).length := by
    rw [List.length_set, hl, hw]
    exact index_lt w h p hx hy
  rw [List.getD_eq_getElem _ _ hlt, List.getElem_set_self]

theorem Grid.get_set_ne (g : Grid) (w h : Nat) (hwf : g.wf w h) (p q : Pos)
    (hpx : p.1 < w) (_hpy : p.2 < h) (hqx : q.1 < w) (hqy : q.2 < h)
    (hne : p ≠ q) (c : Cell) : (g.set p c).get q = g.get q := by
  obtain ⟨hw, hh, hl⟩ := hwf
  unfold Grid.set Grid.get Grid.index
  simp only
  have hiq : q.2 * g.width + q.1 < g.cells.length := by
    rw [hl, hw]
    exact index_lt w h q hqx hqy
  have hiq' : q.2 * g.width + q.1 <
      (g.cells.set (p.2 * g.width + p.1) c).length := by
    rw [List.length_set]
    exact hiq
  have hneidx : p.2 * g.width + p.1 ≠ q.2 * g.width + q.1 := by
    intro hcon
    rw [hw] at hcon
    exact hne (index_inj w p q hpx hqx hcon)
  rw [List.getD_eq_getElem _ _ hiq', List.getD_eq_getElem _ _ hiq,
    List.getElem_set_ne hneidx]

theorem mem_freeCells (g : Grid) (w h : Nat) (hwf : g.wf w h)
    (ap : Option Pos) (p : Pos) :
    p ∈ freeCells g ap ↔
      p.1 < w ∧ p.2 < h ∧ g.get p = Cell.empty ∧ ap ≠ some p := by
  unfold freeCells
  rw [hwf.1, hwf.2.1]
  rw [List.mem_filter, mem_positionsIn]
  simp only [Bool.and_eq_true, beq_iff_eq, bne_iff_ne, ne_eq]
  tauto

theorem placeObj_spec (g : Grid) (w h : Nat) (hwf : g.wf w h)
    (ap : Option Pos) (c : Cell) (seed : Nat) (g' : Grid) (p : Pos)
    (hpo : placeObj g ap c seed = some (g', p)) :
    p.1 < w ∧ p.2 < h ∧ g.get p = Cell.empty ∧ ap ≠ some p ∧
      g' = g.set p c := by
  simp only [placeObj] at hpo
  cases hfree :
      (freeCells g ap).get? (seed % (freeCells g ap).length) with
  | none =>
    rw [hfree] at hpo
    exact absurd hpo (by simp)
  | some q =>
    rw [hfree] at hpo
    simp only [Option.map_some', Option.some.injEq, Prod.mk.injEq] at hpo
    obtain ⟨hg, hp⟩ := hpo
    have hq : q ∈ freeCells g ap := List.get?_mem hfree
    rw [mem_freeCells g w h hwf] at hq
    subst hp
    exact ⟨hq.1, hq.2.1, hq.2.2.1, hq.2.2.2, hg.symm⟩

theorem placeAgent_spec (g : Grid) (w h : Nat) (hwf : g.wf w h)
    (seed : Nat) (p : Pos) (hpa : placeAgent g seed = some p) :
    p.1 < w ∧ p.2 < h ∧ g.get p = Cell.empty := by
  simp only [placeAgent] at hpa
  have hp : p ∈ freeCells g none := List.get?_mem hpa
  rw [mem_freeCells g w h hwf] at hp
  exact ⟨hp.1, hp.2.1, hp.2.2.1⟩

theorem LayoutInv.place (w h : Nat) (g : Grid) (apos : Pos)
    (placed : List Color) (c : Color) (p : Pos)
    (hinv : LayoutInv w h g apos placed)
    (hc : c ∉ placed)
    (hx : p.1 < w) (hy : p.2 < h) (hemp : g.get p = Cell.empty)
    (hap : p ≠ apos) :
    LayoutInv w h (g.set p (Cell.key c)) apos (placed ++ [c]) := by
  have hwf := hinv.wf
  have hgoal_ne : p ≠ ((w - 2, h - 2) : Pos) := by
    intro hcon
    have := (hinv.goalIff p hx hy).2 hcon
    rw [hemp] at this
    exact absurd this (by simp)
  refine ⟨Grid.wf_set g w h hwf p (Cell.key c), ?_, ?_, ?_, ?_, ?_⟩
  · intro q hqx hqy hqb
    have hne : p ≠ q := by
      intro hcon
      have := hinv.walls q hqx hqy hqb
      rw [← hcon, hemp] at this
      exact absurd this (by simp)
    rw [Grid.get_set_ne g w h hwf p q hx hy hqx hqy hne]
    exact hinv.walls q hqx hqy hqb
  · intro q hqx hqy
    by_cases hpq : p = q
    · subst hpq
      rw [Grid.get_set_self g w h hwf p hx hy]
      constructor
      · intro hcon
        exact absurd hcon (by simp)
      · intro hcon
        exact absurd hcon hgoal_ne
    · rw [Grid.get_set_ne g w h hwf p q hx hy hqx hqy hpq]
      exact hinv.goalIff q hqx hqy
  · intro c2 hc2 q hqx hqy
    have hc2p : c2 ∉ placed := by
      intro hcon
      exact hc2 (List.mem_append_left _ hcon)
    have hc2c : c2 ≠ c := by
      intro hcon
      exact hc2 (List.mem_append_right _ (by simp [hcon]))
    by_cases hpq : p = q
    · subst hpq
      rw [Grid.get_set_self g w h hwf p hx hy]
      intro hcon
      exact hc2c (by injection hcon with hck; exact hck.symm)
    · rw [Grid.get_set_ne g w h hwf p q hx hy hqx hqy hpq]
      exact hinv.noKey c2 hc2p q hqx hqy
  · intro c2 hc2
    rcases List.mem_append.1 hc2 with hold | hnew
    · obtain ⟨q0, hq0x, hq0y, hq0get, hq0uniq⟩ := hinv.oneKey c2 hold
      have hq0p : p ≠ q0 := by
        intro hcon
        rw [← hcon, hemp] at hq0get
        exact absurd hq0get (by simp)
      refine ⟨q0, hq0x, hq0y, ?_, ?_⟩
      · rw [Grid.get_set_ne g w h hwf p q0 hx hy hq0x hq0y hq0p]
        exact hq0get
      · intro q hqx hqy hqget
        by_cases hpq : p = q
        · subst hpq
          rw [Grid.get_set_self g w h hwf p hx hy] at hqget
          have : c = c2 := Cell.key.inj hqget
          rw [this] at hc
          exact absurd hold hc
        · rw [Grid.get_set_ne g w h hwf p q hx hy hqx hqy hpq] at hqget
          exact hq0uniq q hqx hqy hqget
    · have hcc : c2 = c := by simpa using hnew
      subst hcc
      refine ⟨p, hx, hy, Grid.get_set_self g w h hwf p hx hy _, ?_⟩
      intro q hqx hqy hqget
      by_cases hpq : p = q
      · exact hpq.symm
      · rw [Grid.get_set_ne g w h hwf p q hx hy hqx hqy hpq] at hqget
        exact absurd hqget (hinv.noKey c2 hc q hqx hqy)
  · obtain ⟨hax, hay, haget⟩ := hinv.agentFree
    refine ⟨hax, hay, ?_⟩
    rw [Grid.get_set_ne g w h hwf p apos hx hy hax hay (fun hcon => hap hcon)]
    exact haget

theorem goal_not_boundary (w h : Nat) (hw : 3 ≤ w) (hh : 3 ≤ h) :
    onBoundary w h (w - 2, h - 2) = false := by
  simp only [onBoundary, Bool.or_eq_false_iff, beq_eq_false_iff_ne, ne_eq]
  omega

theorem goal_in_range (w h : Nat) (hw : 3 ≤ w) (hh : 3 ≤ h) :
    ((w - 2, h - 2) : Pos).1 < w ∧ ((w - 2, h - 2) : Pos).2 < h := by
  simp only
  omega

theorem initial_inv (w h : Nat) (hw : 3 ≤ w) (hh : 3 ≤ h) (apos : Pos)
    (seed : Nat)
    (hpa : placeAgent
      (((Grid.create w h).wallRect).set (w - 2, h - 2) Cell.goal) seed =
      some apos) :
    LayoutInv w h
      (((Grid.create w h).wallRect).set (w - 2, h - 2) Cell.goal) apos
      [] := by
  obtain ⟨hgx, hgy⟩ := goal_in_range w h hw hh
  have hwf1 : ((Grid.create w h).wallRect).wf w h :=
    Grid.wf_wallRect _ w h (Grid.wf_create w h)
  have hwf2 :
      ((((Grid.create w h).wallRect).set (w - 2, h - 2) Cell.goal)).wf w h :=
    Grid.wf_set _ w h hwf1 _ _
  have hget1 : ∀ p : Pos, p.1 < w → p.2 < h →
      ((Grid.create w h).wallRect).get p =
        if onBoundary w h p then Cell.wall else Cell.empty := by
    intro p hx hy
    rw [Grid.get_wallRect _ w h (Grid.wf_create w h) p hx hy]
    rw [Grid.get_create w h p hx hy]
  have hget2 : ∀ p : Pos, p.1 < w → p.2 < h → p ≠ (w - 2, h - 2) →
      ((((Grid.create w h).wallRect).set (w - 2, h - 2) Cell.goal)).get p =
        if onBoundary w h p then Cell.wall else Cell.empty := by
    intro p hx hy hne
    rw [Grid.get_set_ne _ w h hwf1 _ p hgx hgy hx hy
      (fun hcon => hne hcon.symm)]
    exact hget1 p hx hy
  have hgetgoal :
      ((((Grid.create w h).wallRect).set (w - 2, h - 2) Cell.goal)).get
        (w - 2, h - 2) = Cell.goal :=
    Grid.get_set_self _ w h hwf1 _ hgx hgy _
  obtain ⟨hax, hay, haget⟩ :=
    placeAgent_spec _ w h hwf2 seed apos hpa
  refine ⟨hwf2, ?_, ?_, ?_, ?_, hax, hay, haget⟩
  · intro p hx hy hb
    have hne : p ≠ ((w - 2, h - 2) : Pos) := by
      intro hcon
      rw [hcon] at hb
      rw [goal_not_boundary w h hw hh] at hb
      exact absurd hb (by simp)
    rw [hget2 p hx hy hne, if_pos hb]
  · intro p hx hy
    by_cases hpg : p = ((w - 2, h - 2) : Pos)
    · subst hpg
      rw [hgetgoal]
      simp
    · rw [hget2 p hx hy hpg]
      constructor
      · intro hcon
        by_cases hb : onBoundary w h p = true
        · rw [if_pos hb] at hcon
          exact absurd hcon (by simp)
        · rw [if_neg hb] at hcon
          exact absurd hcon (by simp)
      · intro hcon
        exact absurd hcon hpg
  · intro c _ p hx hy
    by_cases hpg : p = ((w - 2, h - 2) : Pos)
    · subst hpg
      rw [hgetgoal]
      simp
    · rw [hget2 p hx hy hpg]
      by_cases hb : onBoundary w h p = true
      · rw [if_pos hb]
        simp
      · rw [if_neg hb]
        simp
  · intro c hc
    exact absurd hc (by simp)

theorem placeKeys_inv (w h : Nat) (apos : Pos) (colors : List Color)
    (seeds : Nat → Nat) :
    ∀ (i : Nat) (placed : List Color) (g g' : Grid),
      (placed ++ colors).Nodup →
      LayoutInv w h g apos placed →
      placeKeys g apos colors seeds i = some g' →
      LayoutInv w h g' apos (placed ++ colors) := by
  induction colors with
  | nil =>
    intro i placed g g' hnd hinv hpk
    simp only [placeKeys, Option.some.injEq] at hpk
    subst hpk
    simpa using hinv
  | cons c rest ih =>
    intro i placed g g' hnd hinv hpk
    simp only [placeKeys] at hpk
    cases hpo : placeObj g (some apos) (Cell.key c) (seeds i) with
    | none =>
      rw [hpo] at hpk
      exact absurd hpk (by simp)
    | some gp =>
      rw [hpo] at hpk
      obtain ⟨g1, p⟩ := gp
      obtain ⟨hx, hy, hemp, hap, hg1⟩ :=
        placeObj_spec g w h hinv.wf (some apos) (Cell.key c) (seeds i)
          g1 p hpo
      have hpa : p ≠ apos := by
        intro hcon
        exact hap (by rw [hcon])
      have hcnp : c ∉ placed := by
        rw [List.nodup_append] at hnd
        intro hcon
        exact hnd.2.2 hcon (by simp)
      have hinv1 : LayoutInv w h g1 apos (placed ++ [c]) := by
        rw [hg1]
        exact LayoutInv.place w h g apos placed c p hinv hcnp hx hy hemp hpa
      have hnd1 : ((placed ++ [c]) ++ rest).Nodup := by
        rw [List.append_assoc]
        simpa using hnd
      have hres := ih (i + 1) (placed ++ [c]) g1 g' hnd1 hinv1 hpk
      rw [List.append_assoc] at hres
      simpa using hres

theorem genGrid_inv (w h : Nat) (required : List Color) (seeds : Nat → Nat)
    (ws : WorldState) (hw : 3 ≤ w) (hh : 3 ≤ h) (hnd : required.Nodup)
    (hg : genGrid w h required seeds = some ws) :
    LayoutInv w h ws.grid ws.agentPos required := by
  simp only [genGrid] at hg
  cases hpa : placeAgent
      (((Grid.create w h).wallRect).set (w - 2, h - 2) Cell.goal)
      (seeds 0) with
  | none =>
    simp only [hpa] at hg
    exact absurd hg (by simp)
  | some apos =>
    simp only [hpa] at hg
    cases hpk : placeKeys
        (((Grid.create w h).wallRect).set (w - 2, h - 2) Cell.goal)
        apos required seeds 1 with
    | none =>
      simp only [hpk] at hg
      exact absurd hg (by simp)
    | some g3 =>
      simp only [hpk, Option.some.injEq] at hg
      subst hg
      have hinv0 := initial_inv w h hw hh apos (seeds 0) hpa
      have hres := placeKeys_inv w h apos required seeds 1 [] _ g3
        (by simpa using hnd) hinv0 hpk
      simpa using hres

theorem requiredKeyColorsOf_length (k : Nat) (hk : k ≤ 5) :
    (requiredKeyColorsOf k).length = k := by
  interval_cases k <;> decide

theorem requiredKeyColorsOf_nodup (k : Nat) (hk : k ≤ 5) :
    (requiredKeyColorsOf k).Nodup := by
  interval_cases k <;> decide

/-- C9: for every successfully generated layout, the outer boundary is
entirely wall; the goal cells are exactly the fixed interior corner
(w - 2, h - 2); there are exactly k keys, one cell per color of the
required sequence and no key of any other color; and the goal cell, the
agent cell and every key cell are pairwise distinct, none of them on a
wall cell (key and agent cells are interior non-wall cells, and the agent
cell stays empty). -/
theorem genGrid_layout_sound (w h k : Nat) (seeds : Nat → Nat)
    (ws : WorldState) (hw : 3 ≤ w) (hh : 3 ≤ h) (hk : k ≤ 5)
    (hg : genGrid w h (requiredKeyColorsOf k) seeds = some ws) :
    (∀ p : Pos, p.1 < w → p.2 < h → onBoundary w h p = true →
      ws.grid.get p = Cell.wall) ∧
    (∀ p : Pos, p.1 < w → p.2 < h →
      (ws.grid.get p = Cell.goal ↔ p = (w - 2, h - 2))) ∧
    onBoundary w h (w - 2, h - 2) = false ∧
    (requiredKeyColorsOf k).length = k ∧
    (∀ c : Color, c ∈ requiredKeyColorsOf k → ∃ p : Pos,
      p.1 < w ∧ p.2 < h ∧ onBoundary w h p = false ∧
      p ≠ (w - 2, h - 2) ∧ p ≠ ws.agentPos ∧ ws.grid.get p = Cell.key c ∧
      ∀ q : Pos, q.1 < w → q.2 < h → ws.grid.get q = Cell.key c → q = p) ∧
    (∀ c : Color, c ∉ requiredKeyColorsOf k → ∀ p : Pos, p.1 < w →
      p.2 < h → ws.grid.get p ≠ Cell.key c) ∧
    ws.agentPos.1 < w ∧ ws.agentPos.2 < h ∧
    ws.grid.get ws.agentPos = Cell.empty ∧
    onBoundary w h ws.agentPos = false ∧
    ws.agentPos ≠ (w - 2, h - 2) := by
  have hinv := genGrid_inv w h (requiredKeyColorsOf k) seeds ws hw hh
    (requiredKeyColorsOf_nodup k hk) hg
  obtain ⟨hax, hay, haget⟩ := hinv.agentFree
  have hnb : ∀ p : Pos, p.1 < w → p.2 < h → ws.grid.get p ≠ Cell.wall →
      onBoundary w h p = false := by
    intro p hx hy hnw
    by_cases hb : onBoundary w h p = true
    · exact absurd (hinv.walls p hx hy hb) hnw
    · simpa using hb
  refine ⟨hinv.walls, hinv.goalIff, goal_not_boundary w h hw hh,
    requiredKeyColorsOf_length k hk, ?_, hinv.noKey, hax, hay, haget,
    ?_, ?_⟩
  · intro c hc
    obtain ⟨p, hx, hy, hget, huniq⟩ := hinv.oneKey c hc
    refine ⟨p, hx, hy, ?_, ?_, ?_, hget, huniq⟩
    · refine hnb p hx hy ?_
      rw [hget]
      simp
    · intro hcon
      have hgoal := (hinv.goalIff p hx hy).2 hcon
      rw [hget] at hgoal
      exact absurd hgoal (by simp)
    · intro hcon
      rw [hcon, haget] at hget
      exact absurd hget (by simp)
  · refine hnb ws.agentPos hax hay ?_
    rw [haget]
    simp
  · intro hcon
    have hgoal := (hinv.goalIff ws.agentPos hax hay).2 hcon
    rw [haget] at hgoal
    exact absurd hgoal (by simp)

theorem genGrid_layout_sound_witness :
    (∀ p : Pos, p.1 < 5 → p.2 < 5 → onBoundary 5 5 p = true →
      world9.grid.get p = Cell.wall) ∧
    (∀ p : Pos, p.1 < 5 → p.2 < 5 →
      (world9.grid.get p = Cell.goal ↔ p = (5 - 2, 5 - 2))) ∧
    onBoundary 5 5 (5 - 2, 5 - 2) = false ∧
    (requiredKeyColorsOf 2).length = 2 ∧
    (∀ c : Color, c ∈ requiredKeyColorsOf 2 → ∃ p : Pos,
      p.1 < 5 ∧ p.2 < 5 ∧ onBoundary 5 5 p = false ∧
      p ≠ (5 - 2, 5 - 2) ∧ p ≠ world9.agentPos ∧
      world9.grid.get p = Cell.key c ∧
      ∀ q : Pos, q.1 < 5 → q.2 < 5 → world9.grid.get q = Cell.key c →
        q = p) ∧
    (∀ c : Color, c ∉ requiredKeyColorsOf 2 → ∀ p : Pos, p.1 < 5 →
      p.2 < 5 → world9.grid.get p ≠ Cell.key c) ∧
    world9.agentPos.1 < 5 ∧ world9.agentPos.2 < 5 ∧
    world9.grid.get world9.agentPos = Cell.empty ∧
    onBoundary 5 5 world9.agentPos = false ∧
    world9.agentPos ≠ (5 - 2, 5 - 2) :=
  genGrid_layout_sound 5 5 2 (fun _ => 0) world9 (by decide) (by decide)
    (by decide) (by rfl)

theorem requiredKeyColors_fixed_witness :
    (requiredKeyColorsOf 2).length = 2 ∧
    (requiredKeyColorsOf 2).Nodup ∧
    requiredKeyColorsOf 2 = colorOrder.take 2 ∧
    env1.requiredKeyColors = env0.requiredKeyColors :=
  ⟨(requiredKeyColors_fixed 2 (by decide) (by decide)).1,
   (requiredKeyColors_fixed 2 (by decide) (by decide)).2.1,
   (requiredKeyColors_fixed 2 (by decide) (by decide)).2.2.1,
   (requiredKeyColors_fixed 2 (by decide) (by decide)).2.2.2 env0 env1
     (fun _ => 0) (by rfl)⟩

end MultiKey
